import Mathlib

/-!
Verification of the endorser-ch claim-ingestion core.

The JavaScript services under `server/api/services` are embedded shallowly:
JSON values become the `Json` inductive, the relational store becomes the
`DB` structure (lists of typed rows), and each service method becomes a pure
function threading the store state.  Cryptographic digests are kept abstract
(section parameters), since their byte-level definitions live outside the
embedded sources.
-/

/-- A JSON value, as handled by the JavaScript services: claims are JSON values. -/
inductive Json where
  | null : Json
  | bool (b : Bool) : Json
  | num (n : Int) : Json
  | str (s : String) : Json
  | arr (xs : List Json) : Json
  | obj (fields : List (String × Json)) : Json

mutual

/-- Boolean structural equality of JSON values. -/
def Json.beq : Json → Json → Bool
  | .null, .null => true
  | .bool a, .bool b => a == b
  | .num a, .num b => a == b
  | .str a, .str b => a == b
  | .arr a, .arr b => Json.beqList a b
  | .obj a, .obj b => Json.beqFields a b
  | _, _ => false

/-- Boolean structural equality of JSON arrays. -/
def Json.beqList : List Json → List Json → Bool
  | [], [] => true
  | a :: as, b :: bs => Json.beq a b && Json.beqList as bs
  | _, _ => false

/-- Boolean structural equality of JSON object field lists. -/
def Json.beqFields : List (String × Json) → List (String × Json) → Bool
  | [], [] => true
  | (ka, va) :: as, (kb, vb) :: bs => ka == kb && Json.beq va vb && Json.beqFields as bs
  | _, _ => false

end

mutual

theorem Json.beq_iff : ∀ a b : Json, Json.beq a b = true ↔ a = b
  | .null, b => by cases b <;> simp [Json.beq]
  | .bool x, b => by cases b <;> simp [Json.beq]
  | .num x, b => by cases b <;> simp [Json.beq]
  | .str x, b => by cases b <;> simp [Json.beq]
  | .arr xs, b => by cases b <;> simp [Json.beq, Json.beqList_iff xs]
  | .obj fs, b => by cases b <;> simp [Json.beq, Json.beqFields_iff fs]

theorem Json.beqList_iff : ∀ as bs : List Json, Json.beqList as bs = true ↔ as = bs
  | [], bs => by cases bs <;> simp [Json.beqList]
  | a :: as, bs => by
      cases bs with
      | nil => simp [Json.beqList]
      | cons b bs => simp [Json.beqList, Json.beq_iff a b, Json.beqList_iff as bs]

theorem Json.beqFields_iff : ∀ as bs : List (String × Json), Json.beqFields as bs = true ↔ as = bs
  | [], bs => by cases bs <;> simp [Json.beqFields]
  | (ka, va) :: as, bs => by
      cases bs with
      | nil => simp [Json.beqFields]
      | cons b bs =>
          obtain ⟨kb, vb⟩ := b
          simp [Json.beqFields, Json.beq_iff va vb, Json.beqFields_iff as bs, and_assoc]

end

instance : DecidableEq Json := fun a b => decidable_of_iff _ (Json.beq_iff a b)

/-- Reading a property of a JSON value, as JavaScript member access on an object
does: absent keys (and any access on a non-object) yield `none`, standing for
the JavaScript `undefined`. -/
def Json.getField : Json → String → Option Json
  | .obj fs, key => fs.lookup key
  | _, _ => none

/-- Setting a property of a JSON object in place, as the JavaScript assignment
`claim[key] = v` does: the first binding of the key is replaced, or the key is
appended; assignment on a non-object value is a silent no-op. -/
def Json.setField : Json → String → Json → Json
  | .obj fs, key, v => .obj (setFieldIn fs key v)
  | j, _, _ => j
where
  /-- Replace the first binding of `key`, or append it. -/
  setFieldIn : List (String × Json) → String → Json → List (String × Json)
  | [], key, v => [(key, v)]
  | (k, w) :: fs, key, v =>
      if k = key then (k, v) :: fs else (k, w) :: setFieldIn fs key v

/-- JavaScript truthiness of a JSON value: `null`, `false`, `0` and the empty
string are falsy; arrays and objects are always truthy. -/
def Json.truthy : Json → Bool
  | .null => false
  | .bool b => b
  | .num n => n != 0
  | .str s => s != ""
  | .arr _ => true
  | .obj _ => true

/-- JavaScript truthiness of a possibly-undefined value (`none` is falsy). -/
def jsTruthy : Option Json → Bool
  | none => false
  | some v => v.truthy

/-- The JavaScript guarded access `a && f(a)`: the first falsy value
short-circuits, otherwise the second operand is evaluated. -/
def jsAnd (a : Option Json) (f : Json → Option Json) : Option Json :=
  match a with
  | none => none
  | some v => if v.truthy then f v else some v

/-- Whether a JavaScript value is `== null`, i.e. `null` or `undefined`. -/
def jsIsNullish : Option Json → Bool
  | none => true
  | some .null => true
  | some _ => false

mutual

/-- Every string occurring anywhere inside a JSON value, in depth-first order. -/
def Json.allStrings : Json → List String
  | .null => []
  | .bool _ => []
  | .num _ => []
  | .str s => [s]
  | .arr xs => Json.allStringsList xs
  | .obj fs => Json.allStringsFields fs

/-- Every string occurring inside the elements of a JSON array. -/
def Json.allStringsList : List Json → List String
  | [] => []
  | j :: js => j.allStrings ++ Json.allStringsList js

/-- Every string occurring inside the values of a JSON object. -/
def Json.allStringsFields : List (String × Json) → List String
  | [] => []
  | (_, j) :: fs => j.allStrings ++ Json.allStringsFields fs

end

/-- Whether a string is a decentralized identifier (a `did:` prefix), checked
on the character data so that it evaluates by reduction. -/
def isDid (s : String) : Bool := s.data.take 4 == "did:".data

/-- Modelled from the spec: every identity found anywhere inside a claim
payload by recursive scan of the object graph (the `allDidsInside` utility,
whose source lives outside the embedded files), without duplicates. -/
def allDidsInside (claim : Json) : List String :=
  (claim.allStrings.filter isDid).dedup

/-- Insertion of a field into a key-sorted field list. -/
def insertFieldSorted (p : String × Json) : List (String × Json) → List (String × Json)
  | [] => [p]
  | q :: qs => if p.1 ≤ q.1 then p :: q :: qs else q :: insertFieldSorted p qs

/-- Insertion sort of object fields by key, giving the canonical key order. -/
def sortFields : List (String × Json) → List (String × Json)
  | [] => []
  | p :: ps => insertFieldSorted p (sortFields ps)

mutual

/-- Modelled from the spec: the canonical form of a JSON value (the
`canonicalize` library), with object keys recursively sorted so that
semantically identical claims produce identical serializations. -/
def Json.canon : Json → Json
  | .null => .null
  | .bool b => .bool b
  | .num n => .num n
  | .str s => .str s
  | .arr xs => .arr (Json.canonList xs)
  | .obj fs => .obj (sortFields (Json.canonFields fs))

/-- Canonical form of the elements of a JSON array. -/
def Json.canonList : List Json → List Json
  | [] => []
  | j :: js => j.canon :: Json.canonList js

/-- Canonical form of the values of a JSON object. -/
def Json.canonFields : List (String × Json) → List (String × Json)
  | [] => []
  | (k, j) :: fs => (k, j.canon) :: Json.canonFields fs

end

/-- Escaping of quote and backslash characters in a serialized JSON string. -/
def escapeJsonString (s : String) : String :=
  String.mk (s.data.foldl (fun acc c =>
    if c = '"' then acc ++ ['\\', '"'] else if c = '\\' then acc ++ ['\\', '\\'] else acc ++ [c]) [])

mutual

/-- Serialization of a JSON value to a byte-stable string. -/
def Json.render : Json → String
  | .null => "null"
  | .bool b => if b then "true" else "false"
  | .num n => toString n
  | .str s => "\"" ++ escapeJsonString s ++ "\""
  | .arr xs => "[" ++ Json.renderList xs ++ "]"
  | .obj fs => "\x7b" ++ Json.renderFields fs ++ "\x7d"

/-- Serialization of the elements of a JSON array, comma separated. -/
def Json.renderList : List Json → String
  | [] => ""
  | [j] => j.render
  | j :: js => j.render ++ "," ++ Json.renderList js

/-- Serialization of the fields of a JSON object, comma separated. -/
def Json.renderFields : List (String × Json) → String
  | [] => ""
  | [(k, j)] => "\"" ++ escapeJsonString k ++ "\":" ++ j.render
  | (k, j) :: fs => "\"" ++ escapeJsonString k ++ "\":" ++ j.render ++ "," ++ Json.renderFields fs

end

/-- Modelled from the spec: deterministic JSON canonicalization (the
`canonicalize` library used by the services), producing a byte-stable string
with sorted keys. -/
def canonicalize (j : Json) : String :=
  j.canon.render

/-- Modelled from the spec: a claim-envelope row of the append-only claim
table.  The id is assigned by the store; the content hash and chain value are
backfilled by the chain-rebuild pass (the base64 claim encoding is not
modelled, being an external library). -/
structure JwtRow where
  id : Nat
  issuer : String
  issuedAt : Nat
  subject : Option String
  claimContext : Option Json
  claimType : Option Json
  claim : String
  jwtEncoded : String
  hashHex : Option String
  hashChainHex : Option String
deriving DecidableEq

/-- Modelled from the spec: an event row, deduplicated by organizer name,
event name and start time. -/
structure EventRow where
  id : Nat
  orgName : Option Json
  name : Option Json
  startTime : Option Json
deriving DecidableEq

/-- Modelled from the spec: an action row referencing its envelope and event. -/
structure ActionRow where
  id : Nat
  jwtId : Nat
  issuerDid : String
  agentDid : String
  eventId : Nat
deriving DecidableEq

/-- Modelled from the spec: a tenure row (the four derived bounding-box
columns are not modelled; no embedded operation reads them). -/
structure TenureRow where
  id : Nat
  jwtId : Nat
  issuerDid : String
  partyDid : Option Json
  polygon : Json
deriving DecidableEq

/-- Modelled from the spec: an organizational-role row. -/
structure OrgRoleRow where
  id : Nat
  jwtId : Nat
  issuerDid : String
  orgName : Option Json
  roleName : Option Json
  startDate : Option Json
  endDate : Option Json
  memberDid : Option Json
deriving DecidableEq

/-- Modelled from the spec: a vote row. -/
structure VoteRow where
  id : Nat
  jwtId : Nat
  issuerDid : String
  actionOption : Option Json
  candidate : Option Json
  eventName : Option Json
  eventStartTime : Option Json
deriving DecidableEq

/-- Modelled from the spec: a confirmation row referencing the issuer, the
confirming envelope, the canonicalized original claim, and at most one of a
target action, tenure or organizational-role row. -/
structure ConfirmationRow where
  id : Nat
  issuer : String
  jwtId : Nat
  origClaim : String
  actionRowId : Option Nat
  tenureRowId : Option Nat
  orgRoleRowId : Option Nat
deriving DecidableEq

/-- Modelled from the spec: a registration row authorizing an identity to
submit claims, with optional per-identity quota overrides. -/
structure RegistrationRow where
  did : String
  agent : Option String
  epoch : Nat
  jwtId : Option Nat
  maxClaims : Option Nat
  maxRegs : Option Nat
deriving DecidableEq

/-- Modelled from the spec: the relational store, one list per table, plus the
directed visibility edges (observer, observed). -/
structure DB where
  jwts : List JwtRow
  events : List EventRow
  actionClaims : List ActionRow
  tenureClaims : List TenureRow
  orgRoleClaims : List OrgRoleRow
  votes : List VoteRow
  confirmations : List ConfirmationRow
  registrations : List RegistrationRow
  network : List (String × String)
deriving DecidableEq

/-- The empty store. -/
def DB.empty : DB :=
  ⟨[], [], [], [], [], [], [], [], []⟩

/-- Modelled from the spec: fetch an envelope row by id. -/
def DB.jwtById (db : DB) (id : Nat) : Option JwtRow :=
  db.jwts.find? (fun r => r.id == id)

/-- Modelled from the spec: count the envelopes issued by an identity after a
given time. -/
def DB.jwtCountByAfter (db : DB) (issuer : String) (t : Nat) : Nat :=
  (db.jwts.filter (fun r => r.issuer == issuer && t < r.issuedAt)).length

/-- Modelled from the spec: count the registrations performed by an identity
after a given epoch. -/
def DB.registrationCountByAfter (db : DB) (agent : String) (t : Nat) : Nat :=
  (db.registrations.filter (fun r => r.agent == some agent && t < r.epoch)).length

/-- Modelled from the spec: the registration row of an identity, if any. -/
def DB.registrationByDid (db : DB) (did : String) : Option RegistrationRow :=
  db.registrations.find? (fun r => r.did == did)

/-- Modelled from the spec: the event rows matching an organizer name, event
name and start time. -/
def DB.eventsByParams (db : DB) (orgName name startTime : Option Json) : List EventRow :=
  db.events.filter (fun r => r.orgName == orgName && r.name == name && r.startTime == startTime)

/-- Modelled from the spec: the id of the action row of a given agent at a
given event, if any. -/
def DB.actionClaimIdByDidEventId (db : DB) (agentDid : Option Json) (eventId : Nat) : Option Nat :=
  (db.actionClaims.find? (fun r => some (Json.str r.agentDid) == agentDid && r.eventId == eventId)).map (fun r => r.id)

/-- Modelled from the spec: fetch an action row by id. -/
def DB.actionClaimById (db : DB) (id : Nat) : Option ActionRow :=
  db.actionClaims.find? (fun r => r.id == id)

/-- Modelled from the spec: the id of the tenure row of a given party over a
given polygon, if any. -/
def DB.tenureClaimIdByPartyAndGeoShape (db : DB) (partyDid : Option Json) (polygon : Option Json) : Option Nat :=
  (db.tenureClaims.find? (fun r => r.partyDid == partyDid && some r.polygon == polygon)).map (fun r => r.id)

/-- Modelled from the spec: the id of the organizational-role row with a given
organization, role, dates and member, if any. -/
def DB.orgRoleClaimIdByOrgAndDates (db : DB) (orgName roleName startDate endDate memberDid : Option Json) : Option Nat :=
  (db.orgRoleClaims.find? (fun r =>
    r.orgName == orgName && r.roleName == roleName && r.startDate == startDate
      && r.endDate == endDate && r.memberDid == memberDid)).map (fun r => r.id)

/-- Modelled from the spec: the confirmation by an issuer of a given action
row, if any. -/
def DB.confirmationByIssuerAndAction (db : DB) (issuer : String) (actionRowId : Nat) : Option ConfirmationRow :=
  db.confirmations.find? (fun c => c.issuer == issuer && c.actionRowId == some actionRowId)

/-- Modelled from the spec: the confirmation by an issuer of a given tenure
row, if any. -/
def DB.confirmationByIssuerAndTenure (db : DB) (issuer : String) (tenureRowId : Nat) : Option ConfirmationRow :=
  db.confirmations.find? (fun c => c.issuer == issuer && c.tenureRowId == some tenureRowId)

/-- Modelled from the spec: the confirmation by an issuer of a given
organizational-role row, if any. -/
def DB.confirmationByIssuerAndOrgRole (db : DB) (issuer : String) (orgRoleRowId : Nat) : Option ConfirmationRow :=
  db.confirmations.find? (fun c => c.issuer == issuer && c.orgRoleRowId == some orgRoleRowId)

/-- Modelled from the spec: the confirmation by an issuer of an untyped
original claim, matched by canonicalized claim content. -/
def DB.confirmationByIssuerAndOrigClaim (db : DB) (issuer : String) (origClaim : Json) : Option ConfirmationRow :=
  db.confirmations.find? (fun c => c.issuer == issuer && c.origClaim == canonicalize origClaim)

/-- Modelled from the spec: append an event row, the store assigning the next
id. -/
def DB.eventInsert (db : DB) (orgName name startTime : Option Json) : DB × Nat :=
  let id := db.events.length + 1
  ({ db with events := db.events ++ [⟨id, orgName, name, startTime⟩] }, id)

/-- Modelled from the spec: append an action row, the store assigning the next
id. -/
def DB.actionClaimInsert (db : DB) (issuerDid agentDid : String) (jwtId eventId : Nat) : DB × Nat :=
  let id := db.actionClaims.length + 1
  ({ db with actionClaims := db.actionClaims ++ [⟨id, jwtId, issuerDid, agentDid, eventId⟩] }, id)

/-- Modelled from the spec: append a tenure row, the store assigning the next
id. -/
def DB.tenureInsert (db : DB) (issuerDid : String) (jwtId : Nat) (partyDid : Option Json) (polygon : Json) : DB × Nat :=
  let id := db.tenureClaims.length + 1
  ({ db with tenureClaims := db.tenureClaims ++ [⟨id, jwtId, issuerDid, partyDid, polygon⟩] }, id)

/-- Modelled from the spec: append an organizational-role row, the store
assigning the next id. -/
def DB.orgRoleInsert (db : DB) (issuerDid : String) (jwtId : Nat)
    (orgName roleName startDate endDate memberDid : Option Json) : DB × Nat :=
  let id := db.orgRoleClaims.length + 1
  ({ db with orgRoleClaims :=
      db.orgRoleClaims ++ [⟨id, jwtId, issuerDid, orgName, roleName, startDate, endDate, memberDid⟩] }, id)

/-- Modelled from the spec: append a vote row, the store assigning the next
id. -/
def DB.voteInsert (db : DB) (issuerDid : String) (jwtId : Nat)
    (actionOption candidate eventName eventStartTime : Option Json) : DB × Nat :=
  let id := db.votes.length + 1
  ({ db with votes :=
      db.votes ++ [⟨id, jwtId, issuerDid, actionOption, candidate, eventName, eventStartTime⟩] }, id)

/-- Modelled from the spec: append a confirmation row, the store assigning the
next id. -/
def DB.confirmationInsert (db : DB) (issuer : String) (jwtId : Nat) (origClaim : String)
    (actionRowId tenureRowId orgRoleRowId : Option Nat) : DB × Nat :=
  let id := db.confirmations.length + 1
  ({ db with confirmations :=
      db.confirmations ++ [⟨id, issuer, jwtId, origClaim, actionRowId, tenureRowId, orgRoleRowId⟩] }, id)

/-- Modelled from the spec: append a registration row. -/
def DB.registrationInsert (db : DB) (row : RegistrationRow) : DB :=
  { db with registrations := db.registrations ++ [row] }

/-- Modelled from the spec: append an envelope row. -/
def DB.jwtInsert (db : DB) (row : JwtRow) : DB :=
  { db with jwts := db.jwts ++ [row] }

/-- Modelled from the spec: the set of identities directly visible to an
identity, read off the stored visibility edges. -/
def DB.getNetwork (db : DB) (did : String) : List String :=
  (db.network.filter (fun e => e.1 == did)).map (fun e => e.2)

/-- Modelled from the spec: record that `seer` may see `seen` (the
`addCanSee` service); adding an existing edge is a no-op. -/
def DB.addCanSee (db : DB) (seer seen : String) : DB :=
  if (seer, seen) ∈ db.network then db
  else { db with network := db.network ++ [(seer, seen)] }

/-- A stored row as read by the chain-rebuild pass: its id, its canonical
claim string, and its possibly missing content hash. -/
structure IdAndClaim where
  id : Nat
  claim : String
  hashHex : Option String
deriving DecidableEq

/-- An update written back by the chain-rebuild pass: the row id, the (possibly
recomputed) content hash, and the computed chain value. -/
structure MerkleUpdate where
  id : Nat
  hashHex : String
  hashChainHex : String
deriving DecidableEq

/-- Modelled from the spec: the content hash the hashing utility uses for a
stored row — the stored hash when present, recomputed on demand from the claim
when the stored hash is missing. -/
def rowContentHash (hashedClaimWithHashedDids : IdAndClaim → String) (r : IdAndClaim) : String :=
  match r.hashHex with
  | some h => h
  | none => hashedClaimWithHashedDids r

/-- Modelled from the spec: the chain-link computation of the hashing utility.
Each row extends the chain by hashing the previous chain value concatenated
with the row content hash; the digest `hash` and the masked content hash are
abstract parameters. -/
def hashChain (hash : String → String) (hashedClaimWithHashedDids : IdAndClaim → String)
    (seedHex : String) (idAndClaimList : List IdAndClaim) : String :=
  idAndClaimList.foldl (fun prev r => hash (prev ++ rowContentHash hashedClaimWithHashedDids r)) seedHex

/-- The row loop of `merkleUnmerkled` (from the source): extend the chain with
each row in order, backfilling a missing content hash, and record one update
per row. -/
def merkleUnmerkledLoop (hash : String → String) (hashedClaimWithHashedDids : IdAndClaim → String) :
    String → List IdAndClaim → List MerkleUpdate
  | _, [] => []
  | latestHashChainHex, idAndClaim :: rest =>
      let next := hashChain hash hashedClaimWithHashedDids latestHashChainHex [idAndClaim]
      let hh :=
        match idAndClaim.hashHex with
        | none => hashedClaimWithHashedDids idAndClaim
        | some h => h
      ⟨idAndClaim.id, hh, next⟩ :: merkleUnmerkledLoop hash hashedClaimWithHashedDids next rest

/-- The seed of a chain-rebuild run (from the source): the last stored chain
value when one exists, the empty string otherwise. -/
def merkleSeed (hashHexArray : List String) : String :=
  match hashHexArray with
  | [] => ""
  | h :: _ => h

/-- The chain-rebuild entry point (from the source): seed from the stored
chain values and walk the unchained rows in id order. -/
def merkleUnmerkled (hash : String → String) (hashedClaimWithHashedDids : IdAndClaim → String)
    (hashHexArray : List String) (idAndClaimArray : List IdAndClaim) : List MerkleUpdate :=
  merkleUnmerkledLoop hash hashedClaimWithHashedDids (merkleSeed hashHexArray) idAndClaimArray

/-- A concrete digest used to exercise the chain-rebuild theorem. -/
def demoDigest (s : String) : String := "H" ++ s

/-- The service identifier expected in the object field of a registration
claim (deployment configuration). -/
def SERVICE_ID : String := "endorser.ch"

/-- Default weekly claim quota (from the source, absent deployment
overrides). -/
def DEFAULT_MAX_CLAIMS_PER_WEEK : Nat := 100

/-- Default monthly registration quota (from the source, absent deployment
overrides). -/
def DEFAULT_MAX_REGISTRATIONS_PER_MONTH : Nat := 10

/-- Whether a claim context value is the schema.org context, in either of the
two accepted spellings (from the source). -/
def isContextSchemaOrg (context : Option Json) : Bool :=
  context == some (.str "https://schema.org") || context == some (.str "http://schema.org")

/-- Whether a claim context is acceptable for a legacy confirmation (from the
source). -/
def isContextSchemaForConfirmation (context : Option Json) : Bool :=
  isContextSchemaOrg context

/-- Whether a claim is a registration claim aimed at this service (from the
source). -/
def isEndorserRegistrationClaim (claim : Json) : Bool :=
  isContextSchemaOrg (claim.getField "@context")
    && claim.getField "@type" == some (.str "RegisterAction")
    && claim.getField "object" == some (.str SERVICE_ID)

/-- Errors raised by the embedded services.  Constructors carrying a number
name the pre-existing row id mentioned in the corresponding message. -/
inductive Err where
  | jwtVerifyFailed : Err
  | issuerMismatch : Err
  | unregisteredUser : Err
  | overClaimLimit : Err
  | overRegistrationLimit : Err
  | cannotRegisterTooSoon : Err
  | jwtWithoutClaim : Err
  | unrecordedEvent : Err
  | unrecordedAction : Err
  | unrecordedTenure : Err
  | unrecordedOrgRole : Err
  | alreadyConfirmedAction (id : Nat) : Err
  | alreadyConfirmedTenure (id : Nat) : Err
  | alreadyConfirmedOrgRole (id : Nat) : Err
  | alreadyConfirmedClaim (id : Nat) : Err
  | noAgentDid : Err
  | noEventInfo : Err
  | actionAlreadyExists (id : Nat) : Err
  | typeError : Err
deriving DecidableEq

/-- JavaScript member access `v.key` on a possibly-undefined value: access on
`null` or `undefined` throws, access on any other value yields the property
(or `undefined`). -/
def jsGet (v : Option Json) (key : String) : Except Err (Option Json) :=
  match v with
  | none => .error .typeError
  | some .null => .error .typeError
  | some j => .ok (j.getField key)

/-- Member access on a value known not to crash (used where the source has
already established truthiness of the receiver). -/
def optField (v : Option Json) (key : String) : Option Json :=
  match v with
  | some j => j.getField key
  | none => none

/-- The result record of `createOneConfirmation` (from the source): the new
confirmation id plus the id of the typed target, when one was resolved. -/
structure ConfirmResult where
  confirmId : Nat
  actionClaimId : Option Nat := none
  tenureClaimId : Option Nat := none
  orgRoleClaimId : Option Nat := none
deriving DecidableEq

/-- Defaulting of a missing original-claim context (from the source): claims
embedded in an `AgreeAction` are schema.org by default. -/
def normalizeConfContext (c : Json) : Json :=
  if jsIsNullish (c.getField "@context") then c.setField "@context" (.str "https://schema.org") else c

/-- Branch test of the confirmation service for an action claim (from the
source). -/
def confJoinActionCond (c : Json) : Bool :=
  isContextSchemaOrg (c.getField "@context") && c.getField "@type" == some (.str "JoinAction")

/-- Branch test of the confirmation service for a tenure claim (from the
source). -/
def confTenureCond (c : Json) : Bool :=
  c.getField "@context" == some (.str "https://endorser.ch")
    && c.getField "@type" == some (.str "Tenure")

/-- Branch test of the confirmation service for an organizational-role claim
(from the source). -/
def confOrgRoleCond (c : Json) : Bool :=
  isContextSchemaOrg (c.getField "@context")
    && c.getField "@type" == some (.str "Organization")
    && jsTruthy (c.getField "member")
    && optField (c.getField "member") "@type" == some (.str "OrganizationRole")
    && jsTruthy (optField (c.getField "member") "member")
    && jsTruthy (optField (optField (c.getField "member") "member") "identifier")

/-- The event-lookup arguments of the action-confirmation branch (from the
source): organizer name, event name and start time, with the member accesses
the source performs. -/
def joinActionConfArgs (c : Json) : Except Err (Option Json × Option Json × Option Json) := do
  let ev := c.getField "event"
  let orgV ← jsGet ev "organizer"
  let orgName ← jsGet orgV "name"
  let name ← jsGet ev "name"
  let startTime ← jsGet ev "startTime"
  pure (orgName, name, startTime)

/-- The agent identifier of an action claim (from the source). -/
def joinActionAgentDid (c : Json) : Except Err (Option Json) :=
  jsGet (c.getField "agent") "did"

/-- The tenure-lookup arguments of the tenure-confirmation branch (from the
source): party identifier and polygon. -/
def tenureConfArgs (c : Json) : Except Err (Option Json × Option Json) := do
  let party ← jsGet (c.getField "party") "did"
  let geo ← jsGet (c.getField "spatialUnit") "geo"
  let polygon ← jsGet geo "polygon"
  pure (party, polygon)

/-- The lookup arguments of the organizational-role confirmation branch (from
the source): organization name, role name, dates and member identifier. -/
def orgRoleConfArgs (c : Json) :
    Option Json × Option Json × Option Json × Option Json × Option Json :=
  (c.getField "name",
   optField (c.getField "member") "roleName",
   optField (c.getField "member") "startDate",
   optField (c.getField "member") "endDate",
   optField (optField (c.getField "member") "member") "identifier")

/-- The branch chain of `createOneConfirmation` (from the source), applied to
the original claim with its context already defaulted: resolve the typed
target when the original claim is an action, tenure or organizational role,
reject a duplicate confirmation by the same issuer naming the existing
confirmation id, and otherwise insert exactly one confirmation row. -/
def createOneConfirmationNormed (db : DB) (jwtId : Nat) (issuerDid : String) (origClaim : Json) :
    DB × Except Err ConfirmResult :=
  if confJoinActionCond origClaim then
      match joinActionConfArgs origClaim with
      | .error e => (db, .error e)
      | .ok (orgName, name, startTime) =>
        match db.eventsByParams orgName name startTime with
        | [] => (db, .error .unrecordedEvent)
        | e0 :: _ =>
          match joinActionAgentDid origClaim with
          | .error e => (db, .error e)
          | .ok agentDid =>
            match db.actionClaimIdByDidEventId agentDid e0.id with
            | none => (db, .error .unrecordedAction)
            | some actionClaimId =>
              match db.confirmationByIssuerAndAction issuerDid actionClaimId with
              | some confirmation => (db, .error (.alreadyConfirmedAction confirmation.id))
              | none =>
                let origClaimStr := canonicalize origClaim
                let inserted := db.confirmationInsert issuerDid jwtId origClaimStr
                  (some actionClaimId) none none
                (inserted.1, .ok { confirmId := inserted.2, actionClaimId := some actionClaimId })
    else if confTenureCond origClaim then
      match tenureConfArgs origClaim with
      | .error e => (db, .error e)
      | .ok (party, polygon) =>
        match db.tenureClaimIdByPartyAndGeoShape party polygon with
        | none => (db, .error .unrecordedTenure)
        | some tenureClaimId =>
          match db.confirmationByIssuerAndTenure issuerDid tenureClaimId with
          | some confirmation => (db, .error (.alreadyConfirmedTenure confirmation.id))
          | none =>
            let origClaimStr := canonicalize origClaim
            let inserted := db.confirmationInsert issuerDid jwtId origClaimStr
              none (some tenureClaimId) none
            (inserted.1, .ok { confirmId := inserted.2, tenureClaimId := some tenureClaimId })
    else if confOrgRoleCond origClaim then
      match db.orgRoleClaimIdByOrgAndDates (orgRoleConfArgs origClaim).1
          (orgRoleConfArgs origClaim).2.1 (orgRoleConfArgs origClaim).2.2.1
          (orgRoleConfArgs origClaim).2.2.2.1 (orgRoleConfArgs origClaim).2.2.2.2 with
        | none => (db, .error .unrecordedOrgRole)
        | some orgRoleClaimId =>
          match db.confirmationByIssuerAndOrgRole issuerDid orgRoleClaimId with
          | some confirmation => (db, .error (.alreadyConfirmedOrgRole confirmation.id))
          | none =>
            let origClaimStr := canonicalize origClaim
            let inserted := db.confirmationInsert issuerDid jwtId origClaimStr
              none none (some orgRoleClaimId)
            (inserted.1, .ok { confirmId := inserted.2, orgRoleClaimId := some orgRoleClaimId })
    else
      match db.confirmationByIssuerAndOrigClaim issuerDid origClaim with
      | some confirmation => (db, .error (.alreadyConfirmedClaim confirmation.id))
      | none =>
        let origClaimStr := canonicalize origClaim
        let inserted := db.confirmationInsert issuerDid jwtId origClaimStr none none none
        (inserted.1, .ok { confirmId := inserted.2 })

/-- One confirmation of one original claim (from the source): reading the
context of a null original claim throws; otherwise the missing context is
defaulted to schema.org and the branch chain runs. -/
def createOneConfirmation (db : DB) (jwtId : Nat) (issuerDid : String) (origClaim0 : Json) :
    DB × Except Err ConfirmResult :=
  match origClaim0 with
  | .null => (db, .error .typeError)
  | _ => createOneConfirmationNormed db jwtId issuerDid (normalizeConfContext origClaim0)

/-- A confirmation target: a resolved action, tenure or organizational-role
row, or the canonicalized original claim for untyped confirmations. -/
inductive ConfTarget where
  | action (id : Nat) : ConfTarget
  | tenure (id : Nat) : ConfTarget
  | orgRole (id : Nat) : ConfTarget
  | untyped (claimStr : String) : ConfTarget
deriving DecidableEq

/-- Resolution of the confirmation target of an original claim, re-deriving
its natural key exactly as the branch chain of the confirmation service does. -/
def confTargetResolve (db : DB) (c : Json) : Except Err ConfTarget :=
  if confJoinActionCond c then
    match joinActionConfArgs c with
    | .error e => .error e
    | .ok (orgName, name, startTime) =>
      match db.eventsByParams orgName name startTime with
      | [] => .error .unrecordedEvent
      | e0 :: _ =>
        match joinActionAgentDid c with
        | .error e => .error e
        | .ok agentDid =>
          match db.actionClaimIdByDidEventId agentDid e0.id with
          | none => .error .unrecordedAction
          | some aid => .ok (.action aid)
  else if confTenureCond c then
    match tenureConfArgs c with
    | .error e => .error e
    | .ok (party, polygon) =>
      match db.tenureClaimIdByPartyAndGeoShape party polygon with
      | none => .error .unrecordedTenure
      | some tid => .ok (.tenure tid)
  else if confOrgRoleCond c then
    match db.orgRoleClaimIdByOrgAndDates (orgRoleConfArgs c).1 (orgRoleConfArgs c).2.1
        (orgRoleConfArgs c).2.2.1 (orgRoleConfArgs c).2.2.2.1 (orgRoleConfArgs c).2.2.2.2 with
    | none => .error .unrecordedOrgRole
    | some oid => .ok (.orgRole oid)
  else .ok (.untyped (canonicalize c))

/-- The stored confirmation by an issuer of a given target, if any, matching
the per-branch duplicate lookups of the confirmation service. -/
def confDup (db : DB) (issuer : String) : ConfTarget → Option ConfirmationRow
  | .action aid => db.confirmationByIssuerAndAction issuer aid
  | .tenure tid => db.confirmationByIssuerAndTenure issuer tid
  | .orgRole oid => db.confirmationByIssuerAndOrgRole issuer oid
  | .untyped s => db.confirmations.find? (fun cf => cf.issuer == issuer && cf.origClaim == s)

/-- The duplicate error of each target kind, naming the pre-existing
confirmation id. -/
def confDupErr : ConfTarget → Nat → Err
  | .action _, i => .alreadyConfirmedAction i
  | .tenure _, i => .alreadyConfirmedTenure i
  | .orgRole _, i => .alreadyConfirmedOrgRole i
  | .untyped _, i => .alreadyConfirmedClaim i

/-- The three typed reference columns a confirmation row carries for each
target kind (at most one of them set). -/
def confTargetCols : ConfTarget → Option Nat × Option Nat × Option Nat
  | .action aid => (some aid, none, none)
  | .tenure tid => (none, some tid, none)
  | .orgRole oid => (none, none, some oid)
  | .untyped _ => (none, none, none)

/-- The result record returned for each target kind, carrying the new
confirmation id. -/
def confResultFor (t : ConfTarget) (confirmId : Nat) : ConfirmResult :=
  match t with
  | .action aid => { confirmId := confirmId, actionClaimId := some aid }
  | .tenure tid => { confirmId := confirmId, tenureClaimId := some tid }
  | .orgRole oid => { confirmId := confirmId, orgRoleClaimId := some oid }
  | .untyped _ => { confirmId := confirmId }

/-- A store holding one event, one action claim at it, and one confirmation of
that action, used to exercise the confirmation theorems. -/
def confDemoDb : DB :=
  { DB.empty with
    events := [⟨1, some (.str "Org"), some (.str "Party"), some (.str "2020-01-01")⟩],
    actionClaims := [⟨1, 1, "did:ethr:ida", "did:ethr:alice", 1⟩],
    confirmations := [⟨1, "did:ethr:bob", 2, "x", some 1, none, none⟩] }

/-- An action claim matching the recorded event and agent of `confDemoDb`. -/
def confDemoClaim : Json :=
  .obj [("@context", .str "https://schema.org"), ("@type", .str "JoinAction"),
        ("agent", .obj [("did", .str "did:ethr:alice")]),
        ("event", .obj [("organizer", .obj [("name", .str "Org")]),
                        ("name", .str "Party"), ("startTime", .str "2020-01-01")])]

/-- Coercion of a JavaScript value to the string the store keeps in a TEXT
column (identities are strings in every recorded claim). -/
def jsStrVal : Option Json → String
  | some (.str s) => s
  | some j => j.render
  | none => "undefined"

/-- Branch test of the dispatcher for an agreement claim (from the source). -/
def agreeActionCond (c : Json) : Bool :=
  isContextSchemaOrg (c.getField "@context") && c.getField "@type" == some (.str "AgreeAction")

/-- Branch test of the dispatcher for a vote claim (from the source). -/
def voteActionCond (c : Json) : Bool :=
  isContextSchemaOrg (c.getField "@context") && c.getField "@type" == some (.str "VoteAction")

/-- Branch test of the dispatcher for a legacy confirmation claim (from the
source). -/
def legacyConfirmationCond (c : Json) : Bool :=
  isContextSchemaForConfirmation (c.getField "@context")
    && c.getField "@type" == some (.str "Confirmation")

/-- Branch test of the dispatcher for an organizational-role claim (from the
source): the last conjunct reads `member.member.identifier` without a guard,
so its evaluation itself can throw. -/
def orgRoleDispatchCond (c : Json) : Except Err Bool :=
  if isContextSchemaOrg (c.getField "@context")
      && c.getField "@type" == some (.str "Organization")
      && jsTruthy (c.getField "member")
      && optField (c.getField "member") "@type" == some (.str "OrganizationRole") then
    match jsGet (optField (c.getField "member") "member") "identifier" with
    | .error e => .error e
    | .ok idv => .ok (jsTruthy idv)
  else .ok false

/-- The event parameters of a dispatched action claim (from the source):
organizer name behind a truthy guard, event name and start time. -/
def joinActionEventParams (c : Json) : Option Json × Option Json × Option Json :=
  (jsAnd (optField (c.getField "event") "organizer") (fun o => o.getField "name"),
   optField (c.getField "event") "name",
   optField (c.getField "event") "startTime")

/-- The polygon of a dispatched tenure claim (from the source), with the
member accesses the source performs. -/
def tenurePolygon (c : Json) : Except Err (Option Json) := do
  let geo ← jsGet (c.getField "spatialUnit") "geo"
  jsGet geo "polygon"

/-- The event name and start date of a dispatched vote claim (from the
source), with the member accesses the source performs. -/
def voteEventArgs (c : Json) : Except Err (Option Json × Option Json) := do
  let o ← jsGet (c.getField "object") "event"
  let name ← jsGet o "name"
  let startDate ← jsGet o "startDate"
  pure (name, startDate)

/-- Sequential confirmation of a list of original claims (from the source):
each rejection is caught and logged, never propagated, and the store effects
of earlier confirmations are kept. -/
def confirmAll (jwtId : Nat) (issuerDid : String) : DB → List Json → DB
  | db, [] => db
  | db, c :: cs => confirmAll jwtId issuerDid (createOneConfirmation db jwtId issuerDid c).1 cs

/-- The insertion step shared by both arms of the dispatched action branch
(from the source): one action row referencing the envelope and the event. -/
def joinActionInsert (db : DB) (jwtId : Nat) (issuerDid : String) (agentDid : Option Json)
    (eventId : Nat) (warns : List String) : DB × List String × Option Err :=
  let ins := db.actionClaimInsert issuerDid (jsStrVal agentDid) jwtId eventId
  (ins.1, warns, none)

/-- The dispatcher body for a non-null claim (from the source): a branch chain
over the context and type tags, each branch deriving its typed record;
unrecognized tags are accepted and produce nothing. -/
def createEmbeddedClaimRecordB (db : DB) (now jwtId : Nat) (issuerDid : String) (claim : Json) :
    DB × List String × Option Err :=
  if agreeActionCond claim then
    match claim.getField "object" with
    | some (.arr cs) => (confirmAll jwtId issuerDid db cs, [], none)
    | some c =>
        if c.truthy then ((createOneConfirmation db jwtId issuerDid c).1, [], none)
        else (db, [], none)
    | none => (db, [], none)
  else if confJoinActionCond claim then
    match jsGet (claim.getField "agent") "did" with
    | .error e => (db, [], some e)
    | .ok agentDid =>
      if !jsTruthy agentDid then (db, [], some .noAgentDid)
      else if !jsTruthy (claim.getField "event") then (db, [], some .noEventInfo)
      else
        match db.eventsByParams (joinActionEventParams claim).1 (joinActionEventParams claim).2.1
            (joinActionEventParams claim).2.2 with
        | [] =>
            let ins := db.eventInsert (joinActionEventParams claim).1
              (joinActionEventParams claim).2.1 (joinActionEventParams claim).2.2
            joinActionInsert ins.1 jwtId issuerDid agentDid ins.2 []
        | e0 :: rest =>
            let warns := if rest.isEmpty then [] else ["Multiple events exist"]
            match db.actionClaimIdByDidEventId agentDid e0.id with
            | some aid =>
                if aid = 0 then joinActionInsert db jwtId issuerDid agentDid e0.id warns
                else (db, warns, some (.actionAlreadyExists aid))
            | none => joinActionInsert db jwtId issuerDid agentDid e0.id warns
  else
    match orgRoleDispatchCond claim with
    | .error e => (db, [], some e)
    | .ok true =>
        let ins := db.orgRoleInsert issuerDid jwtId (claim.getField "name")
          (optField (claim.getField "member") "roleName")
          (optField (claim.getField "member") "startDate")
          (optField (claim.getField "member") "endDate")
          (optField (optField (claim.getField "member") "member") "identifier")
        (ins.1, [], none)
    | .ok false =>
      if isEndorserRegistrationClaim claim then
        match jsGet (claim.getField "participant") "did" with
        | .error e => (db, [], some e)
        | .ok pdid =>
          match jsGet (claim.getField "agent") "did" with
          | .error e => (db, [], some e)
          | .ok adid =>
              (db.registrationInsert ⟨jsStrVal pdid, some (jsStrVal adid), now, some jwtId,
                none, none⟩, [], none)
      else if confTenureCond claim then
        match tenurePolygon claim with
        | .error e => (db, [], some e)
        | .ok (some (.str s)) =>
            let partyDid := jsAnd (claim.getField "party") (fun p => p.getField "did")
            ((db.tenureInsert issuerDid jwtId partyDid (.str s)).1, [], none)
        | .ok _ => (db, [], some .typeError)
      else if voteActionCond claim then
        match voteEventArgs claim with
        | .error e => (db, [], some e)
        | .ok (ename, estart) =>
            ((db.voteInsert issuerDid jwtId (claim.getField "actionOption")
              (claim.getField "candidate") ename estart).1, [], none)
      else if legacyConfirmationCond claim then
        let db1 :=
          match claim.getField "originalClaim" with
          | some oc => if oc.truthy then (createOneConfirmation db jwtId issuerDid oc).1 else db
          | none => db
        match claim.getField "originalClaims" with
        | some (.arr cs) => (confirmAll jwtId issuerDid db1 cs, [], none)
        | some ocs => if ocs.truthy then (db1, [], some .typeError) else (db1, [], none)
        | none => (db1, [], none)
      else (db, [], none)

/-- Dispatch of one claim to its typed record (from the source): reading the
context of a null claim throws; otherwise the branch chain runs. -/
def createEmbeddedClaimRecord (db : DB) (now jwtId : Nat) (issuerDid : String) (claim : Json) :
    DB × List String × Option Err :=
  match claim with
  | .null => (db, [], some .typeError)
  | _ => createEmbeddedClaimRecordB db now jwtId issuerDid claim

/-- First-error combination of dispatch outcomes (from the source, where the
first rejection wins but every element still runs). -/
def orElseErr : Option Err → Option Err → Option Err
  | some e, _ => some e
  | none, o => o

/-- Element-wise dispatch of an array claim (from the source): every element
is dispatched and the first error, if any, is reported. -/
def dispatchList (now jwtId : Nat) (issuerDid : String) :
    DB → List Json → DB × List String × Option Err
  | db, [] => (db, [], none)
  | db, c :: cs =>
      let r := createEmbeddedClaimRecord db now jwtId issuerDid c
      let rest := dispatchList now jwtId issuerDid r.1 cs
      (rest.1, r.2.1 ++ rest.2.1, orElseErr r.2.2 rest.2.2)

/-- Recording of one visibility edge per identity toward the issuer (from the
source). -/
def addAllCanSee (db : DB) (dids : List String) (issuerDid : String) : DB :=
  dids.foldl (fun d did => d.addCanSee did issuerDid) db

/-- The record-creation step of a whole claim payload (from the source): an
array claim is dispatched per element, a single claim directly. -/
def createEmbeddedClaimRecordsStep (db : DB) (now jwtId : Nat) (issuerDid : String)
    (claim : Json) : DB × List String × Option Err :=
  match claim with
  | .arr cs => dispatchList now jwtId issuerDid db cs
  | _ => createEmbeddedClaimRecord db now jwtId issuerDid claim

/-- Dispatch of a whole claim payload (from the source): run the
record-creation step, and only when it reports no error record the visibility
edges toward the issuer, one per identity found anywhere inside the payload. -/
def createEmbeddedClaimRecords (db : DB) (now jwtId : Nat) (issuerDid : String) (claim : Json) :
    DB × List String × Option Err :=
  match createEmbeddedClaimRecordsStep db now jwtId issuerDid claim with
  | (db1, warns, some e) => (db1, warns, some e)
  | (db1, warns, none) => (addAllCanSee db1 (allDidsInside claim) issuerDid, warns, none)

/-- The time values the pipeline reads from the clock: start of the current
week (Monday, UTC) and month as epoch seconds, and the current instant.  The
calendar arithmetic itself is performed by an external date library. -/
structure Clock where
  startOfWeekEpoch : Nat
  startOfMonthEpoch : Nat
  nowEpoch : Nat
deriving DecidableEq

/-- A decoded token payload as the pipeline consumes it: issuer, issue time,
optional subject, and the claim (or the credential subject of an embedded
verifiable credential, precomputed to the value the JavaScript disjunction
yields). -/
structure Payload where
  iss : String
  iat : Nat
  sub : Option String
  claim : Option Json
  vcCredentialSubject : Option Json
deriving DecidableEq

/-- Claim extraction (from the source): the claim property when truthy,
otherwise the credential subject of an embedded verifiable credential. -/
def extractClaim (p : Payload) : Option Json :=
  match p.claim with
  | some c => if c.truthy then some c else p.vcCredentialSubject
  | none => p.vcCredentialSubject

/-- The issuer cross-check (from the source): a supplied, non-empty expected
issuer must equal the token issuer. -/
def authMismatch (authIssuerId : Option String) (iss : String) : Bool :=
  match authIssuerId with
  | some a => a != "" && iss != a
  | none => false

/-- The weekly claim maximum the pipeline enforces (from the source): the
per-identity override when present — explicitly also when it is zero —
otherwise the default. -/
def enforcedMaxClaims (registered : RegistrationRow) : Nat :=
  registered.maxClaims.getD DEFAULT_MAX_CLAIMS_PER_WEEK

/-- The monthly registration maximum the pipeline enforces (from the source):
the per-identity override when present — explicitly also when it is zero —
otherwise the default. -/
def enforcedMaxRegs (registered : RegistrationRow) : Nat :=
  registered.maxRegs.getD DEFAULT_MAX_REGISTRATIONS_PER_MONTH

/-- Modelled from the spec: construction of the envelope row, the store
assigning the next id; content hash and chain value are backfilled later by
the rebuild pass. -/
def buildJwtEntity (db : DB) (payload : Payload) (payloadClaim : Json) (claimStr : String)
    (jwtEncoded : String) : JwtRow :=
  { id := db.jwts.length + 1,
    issuer := payload.iss,
    issuedAt := payload.iat,
    subject := payload.sub,
    claimContext := payloadClaim.getField "@context",
    claimType := payloadClaim.getField "@type",
    claim := claimStr,
    jwtEncoded := jwtEncoded,
    hashHex := none,
    hashChainHex := none }

/-- The type of the typed-record dispatch step: store, current epoch, new
envelope id, issuer, claim payload. -/
abbrev Dispatch := DB → Nat → Nat → String → Json → DB × List String × Option Err

/-- The commit point of the pipeline (from the source): canonicalize, insert
the envelope row, run the dispatch step best-effort — a dispatch failure is
logged and swallowed — and return the new envelope id. -/
def createWithClaimRecordInsert (dispatch : Dispatch) (db : DB) (clock : Clock)
    (jwtEncoded : String) (payload : Payload) (payloadClaim : Json) :
    DB × List String × Except Err Nat :=
  let claimStr := canonicalize payloadClaim
  let jwtEntity := buildJwtEntity db payload payloadClaim claimStr jwtEncoded
  let db1 := db.jwtInsert jwtEntity
  let r := dispatch db1 clock.nowEpoch jwtEntity.id payload.iss payloadClaim
  match r.2.2 with
  | some _ => (r.1, r.2.1 ++ ["Failed to create embedded claim records."], .ok jwtEntity.id)
  | none => (r.1, r.2.1, .ok jwtEntity.id)

/-- The ingestion pipeline after token decoding (from the source),
parameterized by the typed-record dispatch step: issuer cross-check,
registration check, weekly quota check, extra checks for registration claims,
then the commit point. -/
def createWithClaimRecordWith (dispatch : Dispatch) (db : DB) (clock : Clock)
    (jwtEncoded : String) (payload : Payload) (authIssuerId : Option String) :
    DB × List String × Except Err Nat :=
  if authMismatch authIssuerId payload.iss then (db, [], .error .issuerMismatch)
  else
    match db.registrationByDid payload.iss with
    | none => (db, [], .error .unregisteredUser)
    | some registered =>
      if db.jwtCountByAfter payload.iss clock.startOfWeekEpoch ≥ enforcedMaxClaims registered then
        (db, [], .error .overClaimLimit)
      else
        match extractClaim payload with
        | some payloadClaim =>
          if payloadClaim.truthy then
            if isEndorserRegistrationClaim payloadClaim then
              if db.registrationCountByAfter payload.iss clock.startOfMonthEpoch ≥
                  enforcedMaxRegs registered then
                (db, [], .error .overRegistrationLimit)
              else if registered.epoch > clock.startOfWeekEpoch then
                (db, [], .error .cannotRegisterTooSoon)
              else createWithClaimRecordInsert dispatch db clock jwtEncoded payload payloadClaim
            else createWithClaimRecordInsert dispatch db clock jwtEncoded payload payloadClaim
          else (db, [], .error .jwtWithoutClaim)
        | none => (db, [], .error .jwtWithoutClaim)

/-- The ingestion pipeline with its real dispatch step (from the source). -/
def createWithClaimRecord (db : DB) (clock : Clock) (jwtEncoded : String) (payload : Payload)
    (authIssuerId : Option String) : DB × List String × Except Err Nat :=
  createWithClaimRecordWith
    (fun d now jwtId issuerDid claim => createEmbeddedClaimRecords d now jwtId issuerDid claim)
    db clock jwtEncoded payload authIssuerId

/-- The rate-limit report (from the source); the ISO window-boundary strings
are produced by the external date library and not modelled. -/
structure RateLimits where
  doneClaimsThisWeek : Nat
  doneRegistrationsThisMonth : Nat
  maxClaimsPerWeek : Nat
  maxRegistrationsPerMonth : Nat
deriving DecidableEq

/-- The JavaScript defaulting `override or default` as written in the
rate-limit report (from the source): a zero override is falsy and therefore
reports the default. -/
def jsOrNat (o : Option Nat) (d : Nat) : Nat :=
  match o with
  | some n => if n = 0 then d else n
  | none => d

/-- The rate-limit introspection service (from the source). -/
def getRateLimits (db : DB) (clock : Clock) (requestorDid : String) : Except Err RateLimits :=
  match db.registrationByDid requestorDid with
  | some registered => .ok
      { doneClaimsThisWeek := db.jwtCountByAfter requestorDid clock.startOfWeekEpoch,
        doneRegistrationsThisMonth :=
          db.registrationCountByAfter requestorDid clock.startOfMonthEpoch,
        maxClaimsPerWeek := jsOrNat registered.maxClaims DEFAULT_MAX_CLAIMS_PER_WEEK,
        maxRegistrationsPerMonth := jsOrNat registered.maxRegs DEFAULT_MAX_REGISTRATIONS_PER_MONTH }
  | none => .error .unregisteredUser

/-- A registered identity used to exercise the pipeline theorems. -/
def demoRegDb : DB :=
  { DB.empty with registrations := [⟨"did:ethr:ida", none, 0, none, none, none⟩] }

/-- An untyped claim mentioning one identity, used to exercise the pipeline
theorems. -/
def demoPayloadClaim : Json :=
  .obj [("@context", .str "https://schema.org"), ("@type", .str "GiveAction"),
        ("agent", .obj [("did", .str "did:ethr:alice")])]

/-- A decoded payload submitting `demoPayloadClaim`. -/
def demoPayload : Payload := ⟨"did:ethr:ida", 5, none, some demoPayloadClaim, none⟩

/-- A clock with the week starting at epoch 3 and the month at epoch 1. -/
def demoClock : Clock := ⟨3, 1, 10⟩

/-- A dispatch step that always fails, exercising the best-effort commit
point. -/
def failingDispatch : Dispatch := fun d _ _ _ _ => (d, [], some .typeError)

/-- A store whose registered identity has a weekly override of one claim and
has already issued one envelope this week. -/
def c7Db : DB :=
  { DB.empty with
    registrations := [⟨"did:ethr:ida", none, 0, none, some 1, none⟩],
    jwts := [⟨1, "did:ethr:ida", 5, none, none, none, "c", "t", none, none⟩] }

/-- A registration row whose weekly and monthly overrides are both zero. -/
def zeroQuotaReg : RegistrationRow := ⟨"did:ethr:zoe", none, 0, none, some 0, some 0⟩

/-- A store holding only the zero-override registration. -/
def zeroQuotaDb : DB := { DB.empty with registrations := [zeroQuotaReg] }

/-- A decoded payload submitting a claim as the zero-override identity. -/
def zeroQuotaPayload : Payload := ⟨"did:ethr:zoe", 5, none, some demoPayloadClaim, none⟩

/-- A store ready for the duplicate-action scenario: the recorded event,
action and confirmation of `confDemoDb` plus a registration for the agent. -/
def c5Db : DB :=
  { confDemoDb with registrations := [⟨"did:ethr:alice", none, 0, none, none, none⟩] }

/-- A decoded payload resubmitting the already recorded action claim. -/
def c5Payload : Payload := ⟨"did:ethr:alice", 5, none, some confDemoClaim, none⟩

/-- Modelled from the spec: the fixed sentinel substituted for a redacted
identity. -/
def HIDDEN_TEXT : String := "did:none:HIDDEN"

/-- Modelled from the spec: the process-wide visibility cache, keyed by
requester identity. -/
structure NetCache where
  entries : List (String × List String)
deriving DecidableEq

/-- Cache lookup by requester identity. -/
def NetCache.get (c : NetCache) (k : String) : Option (List String) :=
  (c.entries.find? (fun e => e.1 == k)).map (fun e => e.2)

/-- Cache fill for a requester identity. -/
def NetCache.set (c : NetCache) (k : String) (v : List String) : NetCache :=
  ⟨c.entries ++ [(k, v)]⟩

/-- The visible set the action read service uses for a requester (from the
source): the cached entry when present, otherwise the stored edges. -/
def requesterVisibleSet (db : DB) (cache : NetCache) (requesterDid : String) : List String :=
  match cache.get requesterDid with
  | some objects => objects
  | none => db.getNetwork requesterDid

/-- The cache state after the action read service has served a requester (from
the source): filled with the computed set on a miss, untouched on a hit. -/
def actionServiceCacheAfter (db : DB) (cache : NetCache) (requesterDid : String) : NetCache :=
  match cache.get requesterDid with
  | some _ => cache
  | none => cache.set requesterDid (db.getNetwork requesterDid)

/-- The action read service (from the source): fetch the action row by id and,
when the agent identity is not in the requester visible set (cached, or
computed from the stored edges and then cached), substitute the hidden
sentinel for the agent identity — the row itself is always returned. -/
def actionServiceById (db : DB) (cache : NetCache) (id : Nat) (requesterDid : String) :
    Option ActionRow × NetCache :=
  match db.actionClaimById id with
  | none => (none, cache)
  | some actionClaim =>
      if actionClaim.agentDid ∈ requesterVisibleSet db cache requesterDid then
        (some actionClaim, actionServiceCacheAfter db cache requesterDid)
      else
        (some { actionClaim with agentDid := HIDDEN_TEXT },
         actionServiceCacheAfter db cache requesterDid)

/-- A store holding one action row and one visibility edge from a requester
who may see the agent. -/
def c6Db : DB :=
  { DB.empty with
    actionClaims := [⟨1, 1, "did:ethr:ida", "did:ethr:alice", 1⟩],
    network := [("did:ethr:carol", "did:ethr:alice")] }

theorem merkleUnmerkledLoop_length (hash : String → String) (hcwd : IdAndClaim → String) :
    ∀ (seed : String) (rows : List IdAndClaim),
      (merkleUnmerkledLoop hash hcwd seed rows).length = rows.length := by
  intro seed rows
  induction rows generalizing seed with
  | nil => simp [merkleUnmerkledLoop]
  | cons r rs ih => simp [merkleUnmerkledLoop, ih]

theorem merkleUnmerkledLoop_get_zero (hash : String → String) (hcwd : IdAndClaim → String)
    (seed : String) (rows : List IdAndClaim) (r : IdAndClaim) (u : MerkleUpdate)
    (hr : rows.get? 0 = some r) (hu : (merkleUnmerkledLoop hash hcwd seed rows).get? 0 = some u) :
    u.hashChainHex = hash (seed ++ rowContentHash hcwd r)
      ∧ u.hashHex = rowContentHash hcwd r ∧ u.id = r.id := by
  cases rows with
  | nil => simp at hr
  | cons r0 rs =>
      simp [merkleUnmerkledLoop] at hr hu
      subst hr
      subst hu
      refine ⟨by simp [hashChain], ?_, rfl⟩
      cases h : r0.hashHex <;> simp [rowContentHash, h]

theorem merkleUnmerkledLoop_get_succ (hash : String → String) (hcwd : IdAndClaim → String) :
    ∀ (seed : String) (rows : List IdAndClaim) (i : Nat) (r : IdAndClaim) (u v : MerkleUpdate),
      rows.get? (i + 1) = some r →
      (merkleUnmerkledLoop hash hcwd seed rows).get? (i + 1) = some u →
      (merkleUnmerkledLoop hash hcwd seed rows).get? i = some v →
      u.hashChainHex = hash (v.hashChainHex ++ rowContentHash hcwd r)
        ∧ u.hashHex = rowContentHash hcwd r ∧ u.id = r.id := by
  intro seed rows
  induction rows generalizing seed with
  | nil => intro i r u v hr; simp at hr
  | cons r0 rs ih =>
      intro i r u v hr hu hv
      cases i with
      | zero =>
          simp only [merkleUnmerkledLoop, List.get?_cons_succ, List.get?_cons_zero] at hr hu hv
          have hz := merkleUnmerkledLoop_get_zero hash hcwd
            (hashChain hash hcwd seed [r0]) rs r u hr hu
          have hvchain : v.hashChainHex = hashChain hash hcwd seed [r0] := by
            rw [← Option.some_inj.mp hv]
          rw [hvchain]
          exact hz
      | succ j =>
          simp only [merkleUnmerkledLoop, List.get?_cons_succ] at hr hu hv
          exact ih (hashChain hash hcwd seed [r0]) j r u v hr hu hv

/-- C1: a run of the chain-rebuild pass over the stored rows lacking a chain
value, taken in id order from the seed (the last stored chain value, or the
empty string when none), writes for every row a chain value equal to the hash
of the previous chain value concatenated with that row content hash; a row
whose stored content hash is missing has it recomputed rather than failing the
pass, and its chain link is computed from the recomputed content hash. -/
theorem merkleUnmerkled_chain_spec (hash : String → String) (hcwd : IdAndClaim → String)
    (hashHexArray : List String) (rows : List IdAndClaim) :
    ((merkleUnmerkled hash hcwd hashHexArray rows).length = rows.length)
    ∧ (∀ r u, rows.get? 0 = some r →
        (merkleUnmerkled hash hcwd hashHexArray rows).get? 0 = some u →
        u.hashChainHex = hash (merkleSeed hashHexArray ++ rowContentHash hcwd r)
          ∧ u.hashHex = rowContentHash hcwd r ∧ u.id = r.id
          ∧ (r.hashHex = none → u.hashHex = hcwd r))
    ∧ (∀ i r u v, rows.get? (i + 1) = some r →
        (merkleUnmerkled hash hcwd hashHexArray rows).get? (i + 1) = some u →
        (merkleUnmerkled hash hcwd hashHexArray rows).get? i = some v →
        u.hashChainHex = hash (v.hashChainHex ++ rowContentHash hcwd r)
          ∧ u.hashHex = rowContentHash hcwd r ∧ u.id = r.id
          ∧ (r.hashHex = none → u.hashHex = hcwd r)) := by
  refine ⟨merkleUnmerkledLoop_length hash hcwd _ rows, ?_, ?_⟩
  · intro r u hr hu
    have h := merkleUnmerkledLoop_get_zero hash hcwd (merkleSeed hashHexArray) rows r u hr hu
    refine ⟨h.1, h.2.1, h.2.2, ?_⟩
    intro hnone
    rw [h.2.1, rowContentHash, hnone]
  · intro i r u v hr hu hv
    have h := merkleUnmerkledLoop_get_succ hash hcwd (merkleSeed hashHexArray) rows i r u v hr hu hv
    refine ⟨h.1, h.2.1, h.2.2, ?_⟩
    intro hnone
    rw [h.2.1, rowContentHash, hnone]

/-- A concrete masked content hash used to exercise the chain-rebuild
theorem. -/
def demoMasked (r : IdAndClaim) : String := "M" ++ r.claim

theorem merkleUnmerkled_chain_spec_witness :
    ([⟨1, "a", none⟩, ⟨2, "b", some "x"⟩] : List IdAndClaim).get? 1 = some ⟨2, "b", some "x"⟩
    ∧ (merkleUnmerkled demoDigest demoMasked ["s"]
        [⟨1, "a", none⟩, ⟨2, "b", some "x"⟩]).get? 1 = some ⟨2, "x", "HHsMax"⟩
    ∧ (merkleUnmerkled demoDigest demoMasked ["s"]
        [⟨1, "a", none⟩, ⟨2, "b", some "x"⟩]).get? 0 = some ⟨1, "Ma", "HsMa"⟩
    ∧ (⟨2, "x", "HHsMax"⟩ : MerkleUpdate).hashChainHex =
        demoDigest ((⟨1, "Ma", "HsMa"⟩ : MerkleUpdate).hashChainHex
          ++ rowContentHash demoMasked ⟨2, "b", some "x"⟩)
    ∧ (⟨1, "Ma", "HsMa"⟩ : MerkleUpdate).hashHex = demoMasked ⟨1, "a", none⟩ := by
  refine ⟨by rfl, by rfl, by rfl, ?_, ?_⟩
  · exact ((merkleUnmerkled_chain_spec demoDigest demoMasked ["s"]
      [⟨1, "a", none⟩, ⟨2, "b", some "x"⟩]).2.2 0 ⟨2, "b", some "x"⟩ ⟨2, "x", "HHsMax"⟩
      ⟨1, "Ma", "HsMa"⟩ (by rfl) (by rfl) (by rfl)).1
  · exact ((merkleUnmerkled_chain_spec demoDigest demoMasked ["s"]
      [⟨1, "a", none⟩, ⟨2, "b", some "x"⟩]).2.1 ⟨1, "a", none⟩ ⟨1, "Ma", "HsMa"⟩
      (by rfl) (by rfl)).2.2.2 (by rfl)

theorem createOneConfirmation_eq_normed (db : DB) (jwtId : Nat) (issuerDid : String)
    (origClaim0 : Json) (hnn : origClaim0 ≠ .null) :
    createOneConfirmation db jwtId issuerDid origClaim0 =
      createOneConfirmationNormed db jwtId issuerDid (normalizeConfContext origClaim0) := by
  cases origClaim0 with
  | null => exact absurd rfl hnn
  | bool b => rfl
  | num n => rfl
  | str s => rfl
  | arr xs => rfl
  | obj fs => rfl

theorem createOneConfirmationNormed_spec (db : DB) (jwtId : Nat) (issuerDid : String)
    (c : Json) (t : ConfTarget) (ht : confTargetResolve db c = .ok t) :
    (∀ conf, confDup db issuerDid t = some conf →
      createOneConfirmationNormed db jwtId issuerDid c = (db, .error (confDupErr t conf.id)))
    ∧ (confDup db issuerDid t = none →
      createOneConfirmationNormed db jwtId issuerDid c =
        ({ db with confirmations := db.confirmations ++
            [⟨db.confirmations.length + 1, issuerDid, jwtId, canonicalize c,
              (confTargetCols t).1, (confTargetCols t).2.1, (confTargetCols t).2.2⟩] },
         .ok (confResultFor t (db.confirmations.length + 1)))) := by
  unfold confTargetResolve at ht
  unfold createOneConfirmationNormed
  by_cases h1 : confJoinActionCond c
  · rw [if_pos h1] at ht ⊢
    cases hargs : joinActionConfArgs c with
    | error e => rw [hargs] at ht; simp at ht
    | ok args =>
        obtain ⟨orgName, name, startTime⟩ := args
        rw [hargs] at ht
        simp only at ht ⊢
        cases hev : db.eventsByParams orgName name startTime with
        | nil => rw [hev] at ht; simp at ht
        | cons e0 es =>
            rw [hev] at ht
            simp only at ht ⊢
            cases hag : joinActionAgentDid c with
            | error e => rw [hag] at ht; simp at ht
            | ok agentDid =>
                rw [hag] at ht
                simp only at ht ⊢
                cases haid : db.actionClaimIdByDidEventId agentDid e0.id with
                | none => rw [haid] at ht; simp at ht
                | some aid =>
                    rw [haid] at ht
                    simp only [Except.ok.injEq] at ht
                    subst ht
                    constructor
                    · intro conf hconf
                      simp only [confDup] at hconf
                      simp [hconf, confDupErr]
                    · intro hnone
                      simp only [confDup] at hnone
                      simp [hnone, DB.confirmationInsert, confTargetCols, confResultFor]
  · rw [if_neg h1] at ht ⊢
    by_cases h2 : confTenureCond c
    · rw [if_pos h2] at ht ⊢
      cases hargs : tenureConfArgs c with
      | error e => rw [hargs] at ht; simp at ht
      | ok args =>
          obtain ⟨party, polygon⟩ := args
          rw [hargs] at ht
          simp only at ht ⊢
          cases htid : db.tenureClaimIdByPartyAndGeoShape party polygon with
          | none => rw [htid] at ht; simp at ht
          | some tid =>
              rw [htid] at ht
              simp only [Except.ok.injEq] at ht
              subst ht
              constructor
              · intro conf hconf
                simp only [confDup] at hconf
                simp [hconf, confDupErr]
              · intro hnone
                simp only [confDup] at hnone
                simp [hnone, DB.confirmationInsert, confTargetCols, confResultFor]
    · rw [if_neg h2] at ht ⊢
      by_cases h3 : confOrgRoleCond c
      · rw [if_pos h3] at ht ⊢
        cases hoid : db.orgRoleClaimIdByOrgAndDates (orgRoleConfArgs c).1 (orgRoleConfArgs c).2.1
            (orgRoleConfArgs c).2.2.1 (orgRoleConfArgs c).2.2.2.1 (orgRoleConfArgs c).2.2.2.2 with
        | none =>
            rw [hoid] at ht
            simp at ht
        | some oid =>
            rw [hoid] at ht
            simp only [Except.ok.injEq] at ht
            subst ht
            constructor
            · intro conf hconf
              simp only [confDup] at hconf
              simp [hconf, confDupErr]
            · intro hnone
              simp only [confDup] at hnone
              simp [hnone, DB.confirmationInsert, confTargetCols, confResultFor]
      · rw [if_neg h3] at ht ⊢
        simp only [Except.ok.injEq] at ht
        subst ht
        constructor
        · intro conf hconf
          simp only [confDup] at hconf
          simp only [DB.confirmationByIssuerAndOrigClaim]
          simp [hconf, confDupErr]
        · intro hnone
          simp only [confDup] at hnone
          simp only [DB.confirmationByIssuerAndOrigClaim]
          simp [hnone, DB.confirmationInsert, confTargetCols, confResultFor]

/-- C3: for every issuer and every confirmation target (a resolved action,
tenure or organizational-role record, or the canonicalized original claim for
untyped confirmations), a pre-existing confirmation by the same issuer for the
same target makes `createOneConfirmation` reject with an error naming the
existing confirmation id, inserting nothing; with no such confirmation and a
recorded target it inserts exactly one confirmation row and returns its id. -/
theorem createOneConfirmation_spec (db : DB) (jwtId : Nat) (issuerDid : String)
    (origClaim0 : Json) (hnn : origClaim0 ≠ .null) (t : ConfTarget)
    (ht : confTargetResolve db (normalizeConfContext origClaim0) = .ok t) :
    (∀ conf, confDup db issuerDid t = some conf →
      createOneConfirmation db jwtId issuerDid origClaim0 = (db, .error (confDupErr t conf.id)))
    ∧ (confDup db issuerDid t = none →
      createOneConfirmation db jwtId issuerDid origClaim0 =
        ({ db with confirmations := db.confirmations ++
            [⟨db.confirmations.length + 1, issuerDid, jwtId,
              canonicalize (normalizeConfContext origClaim0),
              (confTargetCols t).1, (confTargetCols t).2.1, (confTargetCols t).2.2⟩] },
         .ok (confResultFor t (db.confirmations.length + 1)))) := by
  rw [createOneConfirmation_eq_normed db jwtId issuerDid origClaim0 hnn]
  exact createOneConfirmationNormed_spec db jwtId issuerDid _ t ht

theorem createOneConfirmation_spec_witness :
    confDemoClaim ≠ Json.null
    ∧ confTargetResolve confDemoDb (normalizeConfContext confDemoClaim) = .ok (.action 1)
    ∧ confDup confDemoDb "did:ethr:bob" (.action 1) =
        some ⟨1, "did:ethr:bob", 2, "x", some 1, none, none⟩
    ∧ createOneConfirmation confDemoDb 3 "did:ethr:bob" confDemoClaim =
        (confDemoDb, .error (.alreadyConfirmedAction 1))
    ∧ confDup confDemoDb "did:ethr:carol" (.action 1) = none
    ∧ createOneConfirmation confDemoDb 3 "did:ethr:carol" confDemoClaim =
        ({ confDemoDb with confirmations := confDemoDb.confirmations ++
            [⟨confDemoDb.confirmations.length + 1, "did:ethr:carol", 3,
              canonicalize (normalizeConfContext confDemoClaim),
              (confTargetCols (.action 1)).1, (confTargetCols (.action 1)).2.1,
              (confTargetCols (.action 1)).2.2⟩] },
         .ok (confResultFor (.action 1) (confDemoDb.confirmations.length + 1))) := by
  refine ⟨by decide, by rfl, by rfl, ?_, by rfl, ?_⟩
  · exact (createOneConfirmation_spec confDemoDb 3 "did:ethr:bob" confDemoClaim
      (by decide) (.action 1) (by rfl)).1 ⟨1, "did:ethr:bob", 2, "x", some 1, none, none⟩ (by rfl)
  · exact (createOneConfirmation_spec confDemoDb 3 "did:ethr:carol" confDemoClaim
      (by decide) (.action 1) (by rfl)).2 (by rfl)

theorem setFieldIn_lookup (fs : List (String × Json)) (key : String) (v : Json) :
    (Json.setField.setFieldIn fs key v).lookup key = some v := by
  induction fs with
  | nil => simp [Json.setField.setFieldIn, List.lookup]
  | cons p fs ih =>
      obtain ⟨pk, pv⟩ := p
      by_cases hk : pk = key
      · subst hk
        simp [Json.setField.setFieldIn, List.lookup]
      · have hk2 : (key == pk) = false := by
          simp only [beq_eq_false_iff_ne]
          exact fun e => hk e.symm
        simp [Json.setField.setFieldIn, hk, List.lookup, hk2, ih]

/-- C10: an original claim whose context property is null or absent is treated
by `createOneConfirmation` exactly as the same claim written with the explicit
schema.org context — the same target resolution, duplicate lookup,
canonicalization, store update and result. -/
theorem createOneConfirmation_context_default (db : DB) (jwtId : Nat) (issuerDid : String)
    (fs : List (String × Json))
    (h : jsIsNullish ((Json.obj fs).getField "@context") = true) :
    createOneConfirmation db jwtId issuerDid (.obj fs) =
      createOneConfirmation db jwtId issuerDid
        ((Json.obj fs).setField "@context" (.str "https://schema.org")) := by
  have h1 : normalizeConfContext (Json.obj fs) =
      (Json.obj fs).setField "@context" (.str "https://schema.org") := by
    simp [normalizeConfContext, h]
  have h2 : normalizeConfContext ((Json.obj fs).setField "@context" (.str "https://schema.org")) =
      (Json.obj fs).setField "@context" (.str "https://schema.org") := by
    simp [normalizeConfContext, Json.setField, Json.getField, setFieldIn_lookup, jsIsNullish]
  rw [createOneConfirmation_eq_normed db jwtId issuerDid (.obj fs) (by simp),
    createOneConfirmation_eq_normed db jwtId issuerDid
      ((Json.obj fs).setField "@context" (.str "https://schema.org")) (by simp [Json.setField]),
    h1, h2]

theorem createOneConfirmation_context_default_witness :
    jsIsNullish ((Json.obj [("@type", Json.str "GiveAction")]).getField "@context") = true
    ∧ createOneConfirmation DB.empty 1 "did:ethr:bob" (.obj [("@type", Json.str "GiveAction")]) =
        createOneConfirmation DB.empty 1 "did:ethr:bob"
          ((Json.obj [("@type", Json.str "GiveAction")]).setField "@context"
            (.str "https://schema.org")) :=
  ⟨by rfl, createOneConfirmation_context_default DB.empty 1 "did:ethr:bob"
    [("@type", Json.str "GiveAction")] (by rfl)⟩

theorem createEmbeddedClaimRecord_eq_B (db : DB) (now jwtId : Nat) (issuerDid : String)
    (claim : Json) (h : claim ≠ .null) :
    createEmbeddedClaimRecord db now jwtId issuerDid claim =
      createEmbeddedClaimRecordB db now jwtId issuerDid claim := by
  cases claim with
  | null => exact absurd rfl h
  | bool b => rfl
  | num n => rfl
  | str s => rfl
  | arr xs => rfl
  | obj fs => rfl

/-- C4: dispatching an action claim creates a new event row and an action row
referencing it when no event matches the organizer, name and start-time key;
when events match, the first match is reused (warning exactly when more than
one matches), a pre-existing action by the same agent at that event rejects
the dispatch naming the existing action id with nothing inserted, and
otherwise one action row referencing the matched event is inserted. -/
theorem createEmbeddedClaimRecord_joinAction (db : DB) (now jwtId : Nat) (issuerDid : String)
    (claim : Json) (agentDid : Option Json)
    (hcond : confJoinActionCond claim = true)
    (hagent : jsGet (claim.getField "agent") "did" = .ok agentDid)
    (htr : jsTruthy agentDid = true)
    (hev : jsTruthy (claim.getField "event") = true) :
    (db.eventsByParams (joinActionEventParams claim).1 (joinActionEventParams claim).2.1
        (joinActionEventParams claim).2.2 = [] →
      createEmbeddedClaimRecord db now jwtId issuerDid claim =
        ({ db with
            events := db.events ++ [⟨db.events.length + 1, (joinActionEventParams claim).1,
              (joinActionEventParams claim).2.1, (joinActionEventParams claim).2.2⟩],
            actionClaims := db.actionClaims ++ [⟨db.actionClaims.length + 1, jwtId, issuerDid,
              jsStrVal agentDid, db.events.length + 1⟩] }, [], none))
    ∧ (∀ e0 rest, db.eventsByParams (joinActionEventParams claim).1
        (joinActionEventParams claim).2.1 (joinActionEventParams claim).2.2 = e0 :: rest →
        (∀ aid, db.actionClaimIdByDidEventId agentDid e0.id = some aid → aid ≠ 0 →
          createEmbeddedClaimRecord db now jwtId issuerDid claim =
            (db, if rest.isEmpty then [] else ["Multiple events exist"],
             some (.actionAlreadyExists aid)))
        ∧ (db.actionClaimIdByDidEventId agentDid e0.id = none →
          createEmbeddedClaimRecord db now jwtId issuerDid claim =
            ({ db with actionClaims := db.actionClaims ++ [⟨db.actionClaims.length + 1, jwtId,
                issuerDid, jsStrVal agentDid, e0.id⟩] },
             if rest.isEmpty then [] else ["Multiple events exist"], none))) := by
  have hnn : claim ≠ .null := by
    intro h
    subst h
    simp [confJoinActionCond, Json.getField, isContextSchemaOrg] at hcond
  have hty : claim.getField "@type" = some (.str "JoinAction") := by
    have h := hcond
    simp only [confJoinActionCond, Bool.and_eq_true, beq_iff_eq] at h
    exact h.2
  have hagree : agreeActionCond claim = false := by
    have hne : ((some (Json.str "JoinAction") == some (Json.str "AgreeAction")) : Bool) = false := by
      decide
    simp [agreeActionCond, hty, hne]
  rw [createEmbeddedClaimRecord_eq_B db now jwtId issuerDid claim hnn]
  unfold createEmbeddedClaimRecordB
  rw [if_neg (by simp [hagree]), if_pos hcond, hagent]
  simp only [htr, hev, Bool.not_true, Bool.false_eq_true, if_false]
  constructor
  · intro hempty
    simp only [hempty]
    simp [joinActionInsert, DB.eventInsert, DB.actionClaimInsert]
  · intro e0 rest hcons
    constructor
    · intro aid haid hne
      simp only [hcons, haid]
      rw [if_neg hne]
    · intro hnone
      simp only [hcons, hnone]
      simp [joinActionInsert, DB.actionClaimInsert]

theorem createEmbeddedClaimRecord_joinAction_witness :
    confJoinActionCond confDemoClaim = true
    ∧ jsGet (confDemoClaim.getField "agent") "did" = .ok (some (.str "did:ethr:alice"))
    ∧ DB.empty.eventsByParams (joinActionEventParams confDemoClaim).1
        (joinActionEventParams confDemoClaim).2.1 (joinActionEventParams confDemoClaim).2.2 = []
    ∧ createEmbeddedClaimRecord DB.empty 0 1 "did:ethr:ida" confDemoClaim =
        ({ DB.empty with
            events := [⟨1, (joinActionEventParams confDemoClaim).1,
              (joinActionEventParams confDemoClaim).2.1,
              (joinActionEventParams confDemoClaim).2.2⟩],
            actionClaims := [⟨1, 1, "did:ethr:ida", jsStrVal (some (.str "did:ethr:alice")), 1⟩] },
         [], none)
    ∧ confDemoDb.eventsByParams (joinActionEventParams confDemoClaim).1
        (joinActionEventParams confDemoClaim).2.1 (joinActionEventParams confDemoClaim).2.2 =
        [⟨1, some (.str "Org"), some (.str "Party"), some (.str "2020-01-01")⟩]
    ∧ confDemoDb.actionClaimIdByDidEventId (some (.str "did:ethr:alice")) 1 = some 1
    ∧ createEmbeddedClaimRecord confDemoDb 0 9 "did:ethr:alice" confDemoClaim =
        (confDemoDb, [], some (.actionAlreadyExists 1)) := by
  refine ⟨by rfl, by rfl, by rfl, ?_, by rfl, by rfl, ?_⟩
  · exact (createEmbeddedClaimRecord_joinAction DB.empty 0 1 "did:ethr:ida" confDemoClaim
      (some (.str "did:ethr:alice")) (by rfl) (by rfl) (by rfl) (by rfl)).1 (by rfl)
  · exact ((createEmbeddedClaimRecord_joinAction confDemoDb 0 9 "did:ethr:alice" confDemoClaim
      (some (.str "did:ethr:alice")) (by rfl) (by rfl) (by rfl) (by rfl)).2
      ⟨1, some (.str "Org"), some (.str "Party"), some (.str "2020-01-01")⟩ [] (by rfl)).1
      1 (by rfl) (by decide)

theorem createWithClaimRecordInsert_spec (dispatch : Dispatch) (db : DB) (clock : Clock)
    (jwtEncoded : String) (payload : Payload) (payloadClaim : Json)
    (hmono : ∀ d now jwtId issuerDid claim, (dispatch d now jwtId issuerDid claim).1.jwts = d.jwts) :
    (createWithClaimRecordInsert dispatch db clock jwtEncoded payload payloadClaim).2.2 =
        .ok (db.jwts.length + 1)
    ∧ buildJwtEntity db payload payloadClaim (canonicalize payloadClaim) jwtEncoded ∈
        (createWithClaimRecordInsert dispatch db clock jwtEncoded payload payloadClaim).1.jwts := by
  unfold createWithClaimRecordInsert
  have hid : (buildJwtEntity db payload payloadClaim (canonicalize payloadClaim) jwtEncoded).id =
      db.jwts.length + 1 := rfl
  have hmem : buildJwtEntity db payload payloadClaim (canonicalize payloadClaim) jwtEncoded ∈
      (dispatch (db.jwtInsert (buildJwtEntity db payload payloadClaim (canonicalize payloadClaim)
        jwtEncoded)) clock.nowEpoch (buildJwtEntity db payload payloadClaim
        (canonicalize payloadClaim) jwtEncoded).id payload.iss payloadClaim).1.jwts := by
    rw [hmono]
    simp [DB.jwtInsert]
  cases hr : (dispatch (db.jwtInsert (buildJwtEntity db payload payloadClaim
      (canonicalize payloadClaim) jwtEncoded)) clock.nowEpoch (buildJwtEntity db payload
      payloadClaim (canonicalize payloadClaim) jwtEncoded).id payload.iss payloadClaim).2.2 with
  | none =>
      constructor
      · simp only [hr]
        rw [hid]
      · simp only [hr]
        exact hmem
  | some e =>
      constructor
      · simp only [hr]
        rw [hid]
      · simp only [hr]
        exact hmem

/-- C2: once the pre-commit checks pass, the pipeline inserts the envelope row
and returns its id to the caller whatever the typed-record dispatch afterwards
does — a dispatch failure neither removes the stored envelope nor turns the
submission into a rejection. -/
theorem createWithClaimRecord_commit (dispatch : Dispatch) (db : DB) (clock : Clock)
    (jwtEncoded : String) (payload : Payload) (authIssuerId : Option String)
    (registered : RegistrationRow) (payloadClaim : Json)
    (hauth : authMismatch authIssuerId payload.iss = false)
    (hreg : db.registrationByDid payload.iss = some registered)
    (hcount : db.jwtCountByAfter payload.iss clock.startOfWeekEpoch < enforcedMaxClaims registered)
    (hclaim : extractClaim payload = some payloadClaim)
    (htruthy : payloadClaim.truthy = true)
    (hregclaim : isEndorserRegistrationClaim payloadClaim = true →
      db.registrationCountByAfter payload.iss clock.startOfMonthEpoch < enforcedMaxRegs registered
        ∧ registered.epoch ≤ clock.startOfWeekEpoch)
    (hmono : ∀ d now jwtId issuerDid claim, (dispatch d now jwtId issuerDid claim).1.jwts = d.jwts) :
    (createWithClaimRecordWith dispatch db clock jwtEncoded payload authIssuerId).2.2 =
        .ok (db.jwts.length + 1)
    ∧ buildJwtEntity db payload payloadClaim (canonicalize payloadClaim) jwtEncoded ∈
        (createWithClaimRecordWith dispatch db clock jwtEncoded payload authIssuerId).1.jwts := by
  unfold createWithClaimRecordWith
  rw [if_neg (by simp [hauth])]
  simp only [hreg]
  rw [if_neg (not_le.mpr hcount)]
  simp only [hclaim]
  rw [if_pos htruthy]
  by_cases hr : isEndorserRegistrationClaim payloadClaim
  · obtain ⟨h1, h2⟩ := hregclaim hr
    rw [if_pos hr, if_neg (not_le.mpr h1), if_neg (not_lt.mpr h2)]
    exact createWithClaimRecordInsert_spec dispatch db clock jwtEncoded payload payloadClaim hmono
  · rw [if_neg hr]
    exact createWithClaimRecordInsert_spec dispatch db clock jwtEncoded payload payloadClaim hmono

theorem createWithClaimRecord_commit_witness :
    (failingDispatch demoRegDb 0 1 "x" demoPayloadClaim).2.2 = some .typeError
    ∧ (createWithClaimRecordWith failingDispatch demoRegDb demoClock "tok" demoPayload none).2.2 =
        .ok (demoRegDb.jwts.length + 1)
    ∧ buildJwtEntity demoRegDb demoPayload demoPayloadClaim (canonicalize demoPayloadClaim)
        "tok" ∈
        (createWithClaimRecordWith failingDispatch demoRegDb demoClock "tok" demoPayload
          none).1.jwts := by
  refine ⟨by rfl, ?_⟩
  exact createWithClaimRecord_commit failingDispatch demoRegDb demoClock "tok" demoPayload none
    ⟨"did:ethr:ida", none, 0, none, none, none⟩ demoPayloadClaim (by rfl) (by rfl) (by decide)
    (by rfl) (by rfl) (by decide) (fun _ _ _ _ _ => rfl)

theorem createWithClaimRecordInsert_ok (dispatch : Dispatch) (db : DB) (clock : Clock)
    (jwtEncoded : String) (payload : Payload) (payloadClaim : Json) :
    (createWithClaimRecordInsert dispatch db clock jwtEncoded payload payloadClaim).2.2 =
      .ok (db.jwts.length + 1) := by
  unfold createWithClaimRecordInsert
  have hid : (buildJwtEntity db payload payloadClaim (canonicalize payloadClaim) jwtEncoded).id =
      db.jwts.length + 1 := rfl
  cases hr : (dispatch (db.jwtInsert (buildJwtEntity db payload payloadClaim
      (canonicalize payloadClaim) jwtEncoded)) clock.nowEpoch (buildJwtEntity db payload
      payloadClaim (canonicalize payloadClaim) jwtEncoded).id payload.iss payloadClaim).2.2 with
  | none => simp only [hr]; rw [hid]
  | some e => simp only [hr]; rw [hid]

/-- C7: a registered issuer already at or over the enforced weekly maximum is
rejected with the over-claim-limit error and nothing is stored; an issuer
strictly below the maximum is never rejected for that reason. -/
theorem createWithClaimRecord_weekly_limit (db : DB) (clock : Clock) (jwtEncoded : String)
    (payload : Payload) (authIssuerId : Option String) (registered : RegistrationRow)
    (hauth : authMismatch authIssuerId payload.iss = false)
    (hreg : db.registrationByDid payload.iss = some registered) :
    (db.jwtCountByAfter payload.iss clock.startOfWeekEpoch ≥ enforcedMaxClaims registered →
      createWithClaimRecord db clock jwtEncoded payload authIssuerId =
        (db, [], .error .overClaimLimit))
    ∧ (db.jwtCountByAfter payload.iss clock.startOfWeekEpoch < enforcedMaxClaims registered →
      (createWithClaimRecord db clock jwtEncoded payload authIssuerId).2.2 ≠
        .error .overClaimLimit) := by
  unfold createWithClaimRecord createWithClaimRecordWith
  rw [if_neg (by simp [hauth])]
  simp only [hreg]
  constructor
  · intro hge
    rw [if_pos hge]
  · intro hlt
    rw [if_neg (not_le.mpr hlt)]
    cases hc : extractClaim payload with
    | none => simp only [hc]; simp
    | some payloadClaim =>
        simp only [hc]
        by_cases ht : payloadClaim.truthy
        · rw [if_pos ht]
          by_cases hr : isEndorserRegistrationClaim payloadClaim
          · rw [if_pos hr]
            by_cases hq : db.registrationCountByAfter payload.iss clock.startOfMonthEpoch ≥
                enforcedMaxRegs registered
            · rw [if_pos hq]; simp
            · rw [if_neg hq]
              by_cases hs : registered.epoch > clock.startOfWeekEpoch
              · rw [if_pos hs]; simp
              · rw [if_neg hs]
                rw [createWithClaimRecordInsert_ok]
                simp
          · rw [if_neg hr]
            rw [createWithClaimRecordInsert_ok]
            simp
        · rw [if_neg ht]; simp

theorem createWithClaimRecord_weekly_limit_witness :
    c7Db.jwtCountByAfter "did:ethr:ida" demoClock.startOfWeekEpoch = 1
    ∧ enforcedMaxClaims ⟨"did:ethr:ida", none, 0, none, some 1, none⟩ = 1
    ∧ createWithClaimRecord c7Db demoClock "tok" demoPayload none =
        (c7Db, [], .error .overClaimLimit)
    ∧ (createWithClaimRecord demoRegDb demoClock "tok" demoPayload none).2.2 ≠
        .error .overClaimLimit := by
  refine ⟨by rfl, by rfl, ?_, ?_⟩
  · exact (createWithClaimRecord_weekly_limit c7Db demoClock "tok" demoPayload none
      ⟨"did:ethr:ida", none, 0, none, some 1, none⟩ (by rfl) (by rfl)).1 (by decide)
  · exact (createWithClaimRecord_weekly_limit demoRegDb demoClock "tok" demoPayload none
      ⟨"did:ethr:ida", none, 0, none, none, none⟩ (by rfl) (by rfl)).2 (by decide)

/-- C8: a verified submission whose issuer has no registration row is rejected
with the unregistered-user error and the store is left untouched — no
envelope, typed record or visibility edge. -/
theorem createWithClaimRecord_unregistered (db : DB) (clock : Clock) (jwtEncoded : String)
    (payload : Payload) (authIssuerId : Option String)
    (hauth : authMismatch authIssuerId payload.iss = false)
    (hreg : db.registrationByDid payload.iss = none) :
    createWithClaimRecord db clock jwtEncoded payload authIssuerId =
      (db, [], .error .unregisteredUser) := by
  unfold createWithClaimRecord createWithClaimRecordWith
  rw [if_neg (by simp [hauth])]
  simp only [hreg]

theorem createWithClaimRecord_unregistered_witness :
    DB.empty.registrationByDid "did:ethr:ida" = none
    ∧ createWithClaimRecord DB.empty demoClock "tok" demoPayload none =
        (DB.empty, [], .error .unregisteredUser) :=
  ⟨rfl, createWithClaimRecord_unregistered DB.empty demoClock "tok" demoPayload none rfl rfl⟩

/-- C9, divergence witness: with a per-identity override of zero, the
rate-limit report falls back to the defaults (the JavaScript disjunction
treats zero as falsy) while enforcement uses zero and rejects every
submission — the reported and enforced maxima differ. -/
theorem getRateLimits_enforcement_mismatch :
    getRateLimits zeroQuotaDb demoClock "did:ethr:zoe" =
      .ok ⟨0, 0, DEFAULT_MAX_CLAIMS_PER_WEEK, DEFAULT_MAX_REGISTRATIONS_PER_MONTH⟩
    ∧ enforcedMaxClaims zeroQuotaReg = 0
    ∧ enforcedMaxRegs zeroQuotaReg = 0
    ∧ DEFAULT_MAX_CLAIMS_PER_WEEK ≠ 0
    ∧ DEFAULT_MAX_REGISTRATIONS_PER_MONTH ≠ 0
    ∧ zeroQuotaDb.jwtCountByAfter "did:ethr:zoe" demoClock.startOfWeekEpoch = 0
    ∧ createWithClaimRecord zeroQuotaDb demoClock "tok" zeroQuotaPayload none =
        (zeroQuotaDb, [], .error .overClaimLimit) := by
  exact ⟨by rfl, by rfl, by rfl, by decide, by decide, by rfl, by rfl⟩

/-- C5 as stated fails on the code: resubmitting a recorded action claim makes
the typed-record dispatch reject, the rejection is swallowed so the ingestion
still succeeds and returns the envelope id, yet no visibility edge is
recorded for the identity mentioned in the payload. -/
theorem createEmbeddedClaimRecords_edges_counterexample :
    "did:ethr:alice" ∈ allDidsInside confDemoClaim
    ∧ (createWithClaimRecord c5Db demoClock "tok" c5Payload none).2.2 = .ok 1
    ∧ ("did:ethr:alice", "did:ethr:alice") ∉
        (createWithClaimRecord c5Db demoClock "tok" c5Payload none).1.network := by
  exact ⟨by decide, by rfl, by decide⟩

theorem addCanSee_mem_preserved (db : DB) (a b : String) (x : String × String)
    (hx : x ∈ db.network) : x ∈ (db.addCanSee a b).network := by
  unfold DB.addCanSee
  by_cases hmem : (a, b) ∈ db.network
  · rw [if_pos hmem]; exact hx
  · rw [if_neg hmem]; simp [hx]

theorem addCanSee_mem_self (db : DB) (a b : String) : (a, b) ∈ (db.addCanSee a b).network := by
  unfold DB.addCanSee
  by_cases hmem : (a, b) ∈ db.network
  · rw [if_pos hmem]; exact hmem
  · rw [if_neg hmem]; simp

theorem addAllCanSee_cons (db : DB) (d : String) (ds : List String) (i : String) :
    addAllCanSee db (d :: ds) i = addAllCanSee (db.addCanSee d i) ds i := by
  simp [addAllCanSee]

theorem addAllCanSee_preserved (ds : List String) (db : DB) (i : String) (x : String × String)
    (hx : x ∈ db.network) : x ∈ (addAllCanSee db ds i).network := by
  induction ds generalizing db with
  | nil => exact hx
  | cons d ds ih =>
      rw [addAllCanSee_cons]
      exact ih _ (addCanSee_mem_preserved db d i x hx)

theorem addAllCanSee_mem (ds : List String) (db : DB) (i d : String) (hd : d ∈ ds) :
    (d, i) ∈ (addAllCanSee db ds i).network := by
  induction ds generalizing db with
  | nil => simp at hd
  | cons d0 ds ih =>
      rw [addAllCanSee_cons]
      rcases List.mem_cons.mp hd with h | h
      · subst h
        exact addAllCanSee_preserved ds _ i _ (addCanSee_mem_self db d i)
      · exact ih _ h

/-- C5 amended: when the typed-record dispatch of an ingested payload
completes without error, one visibility edge toward the issuer is recorded for
every identity found anywhere inside the payload; when the dispatch fails, the
ingestion still succeeds but the edges are not recorded. -/
theorem createEmbeddedClaimRecords_edges (db : DB) (now jwtId : Nat) (issuerDid : String)
    (claim : Json)
    (h : (createEmbeddedClaimRecords db now jwtId issuerDid claim).2.2 = none) :
    ∀ d ∈ allDidsInside claim,
      (d, issuerDid) ∈ (createEmbeddedClaimRecords db now jwtId issuerDid claim).1.network := by
  intro d hd
  unfold createEmbeddedClaimRecords at h ⊢
  rcases hs : createEmbeddedClaimRecordsStep db now jwtId issuerDid claim with ⟨db1, warns, err⟩
  simp only [hs] at h ⊢
  cases err with
  | some e => simp at h
  | none => exact addAllCanSee_mem (allDidsInside claim) db1 issuerDid d hd

theorem createEmbeddedClaimRecords_edges_witness :
    (createEmbeddedClaimRecords DB.empty 0 1 "did:ethr:ida" demoPayloadClaim).2.2 = none
    ∧ "did:ethr:alice" ∈ allDidsInside demoPayloadClaim
    ∧ ("did:ethr:alice", "did:ethr:ida") ∈
        (createEmbeddedClaimRecords DB.empty 0 1 "did:ethr:ida" demoPayloadClaim).1.network :=
  ⟨by rfl, by decide, createEmbeddedClaimRecords_edges DB.empty 0 1 "did:ethr:ida"
    demoPayloadClaim (by rfl) "did:ethr:alice" (by decide)⟩

/-- C6: an action read whose stored row exists always returns the row — never
omits it; when the agent identity is outside the requester visible set only
the agent identity field is replaced by the fixed hidden sentinel, and when it
is inside the row is returned unmodified. -/
theorem actionServiceById_spec (db : DB) (cache : NetCache) (id : Nat) (requesterDid : String)
    (a : ActionRow) (ha : db.actionClaimById id = some a) :
    (a.agentDid ∈ requesterVisibleSet db cache requesterDid →
      (actionServiceById db cache id requesterDid).1 = some a)
    ∧ (a.agentDid ∉ requesterVisibleSet db cache requesterDid →
      (actionServiceById db cache id requesterDid).1 =
        some { a with agentDid := HIDDEN_TEXT }) := by
  unfold actionServiceById
  simp only [ha]
  constructor
  · intro hmem
    rw [if_pos hmem]
  · intro hmem
    rw [if_neg hmem]

theorem actionServiceById_spec_witness :
    c6Db.actionClaimById 1 = some ⟨1, 1, "did:ethr:ida", "did:ethr:alice", 1⟩
    ∧ "did:ethr:alice" ∉ requesterVisibleSet c6Db ⟨[]⟩ "did:ethr:bob"
    ∧ (actionServiceById c6Db ⟨[]⟩ 1 "did:ethr:bob").1 =
        some ⟨1, 1, "did:ethr:ida", HIDDEN_TEXT, 1⟩
    ∧ "did:ethr:alice" ∈ requesterVisibleSet c6Db ⟨[]⟩ "did:ethr:carol"
    ∧ (actionServiceById c6Db ⟨[]⟩ 1 "did:ethr:carol").1 =
        some ⟨1, 1, "did:ethr:ida", "did:ethr:alice", 1⟩ := by
  refine ⟨by rfl, by decide, ?_, by decide, ?_⟩
  · exact (actionServiceById_spec c6Db ⟨[]⟩ 1 "did:ethr:bob"
      ⟨1, 1, "did:ethr:ida", "did:ethr:alice", 1⟩ (by rfl)).2 (by decide)
  · exact (actionServiceById_spec c6Db ⟨[]⟩ 1 "did:ethr:carol"
      ⟨1, 1, "did:ethr:ida", "did:ethr:alice", 1⟩ (by rfl)).1 (by decide)
